import Mathlib

/-!
Shallow embedding of the authentication & session-security core of the
bug-tracker service (`src/app/core/security/rate_limiter.py`,
`src/app/core/security/token_blacklist.py`, `src/app/core/security/jwt.py`,
`src/app/services/auth_service.py`).

Time is modelled as Unix seconds (`Nat`); every service operation receives
the wall-clock second `now` at which it runs (the Python code samples the
clock with `int(time.time())` / `datetime.now().timestamp()`).  The Redis
store is modelled as total functions from keys to values together with an
absolute expiry timestamp per key; a key set at time `t` with `ex = ttl`
exists exactly at instants `t' < t + ttl`, matching Redis TTL semantics.
Sorted sets keyed by `str(timestamp)` with score `timestamp` are modelled as
duplicate-free lists of `Nat` (ZADD of an existing member leaves the set
unchanged, exactly as in Redis).
-/

namespace BugTracker

/-- `settings.access_token_expire_minutes * 60` (15 minutes). -/
def accessTokenTtl : Nat := 15 * 60

/-- `settings.refresh_token_expire_days * 24 * 60 * 60` (7 days). -/
def refreshTokenTtl : Nat := 7 * 24 * 60 * 60

/-- `RateLimiter.MAX_FAILED_ATTEMPTS`. -/
def maxFailedAttempts : Nat := 5

/-- `RateLimiter.LOCKOUT_DURATION` (seconds). -/
def lockoutDuration : Nat := 900

/-- `settings.login_rate_limit_window` (seconds). -/
def loginRateLimitWindow : Nat := 60

/-- Decoded JWT claims, mirroring `app.schemas.auth.TokenPayload`. -/
structure TokenPayload where
  sub : String
  email : String
  role : String
  type : String
  jti : String
  iat : Nat
  exp : Nat
deriving DecidableEq, Repr

/-- A presented token string, as seen by `JWTService.verify_token`:
either its RS256 signature verifies under the service public key and it
decodes to a full claims payload (`signed`), or signature verification /
decoding fails (`malformed`). -/
inductive Token where
  | malformed : Token
  | signed : TokenPayload → Token
deriving DecidableEq, Repr

/-- The auth-related exceptions of `app.core.exceptions` raised by the
security core.  `accountLocked` carries the remaining lock seconds when the
code interpolates them into the message (`login`'s lock gate), and `none`
on the newly-locked path, whose message has no remaining-seconds figure. -/
inductive AuthError where
  | accountLocked : Option Nat → AuthError
  | invalidCredentials : AuthError
  | authenticationFailed : AuthError
  | tokenExpired : AuthError
  | tokenInvalid : AuthError
  | tokenBlacklisted : AuthError
deriving DecidableEq, Repr

/-- The Redis database as used by the security core.  Each component maps a
key to its current value; the `…Exp` component maps the key to its absolute
expiry instant (`none`: key absent / no pending write). -/
structure Store where
  blacklistExp : String → Option Nat
  sessions : String → List String
  sessionsExp : String → Option Nat
  window : String → List Nat
  windowExp : String → Option Nat
  lockExp : String → Option Nat

/-- The store with no keys, i.e. a fresh Redis database. -/
def emptyStore : Store :=
  { blacklistExp := fun _ => none
    sessions := fun _ => []
    sessionsExp := fun _ => none
    window := fun _ => []
    windowExp := fun _ => none
    lockExp := fun _ => none }

/-- Pointwise function update used to model a write to one Redis key. -/
def setFun {α : Type} (f : String → α) (k : String) (v : α) : String → α :=
  fun x => if x = k then v else f x

/-- A key written with absolute expiry `e` exists at instant `now` iff
`now < e` (Redis evicts the key once its TTL has elapsed). -/
def keyLive (e : Option Nat) (now : Nat) : Bool :=
  match e with
  | none => false
  | some e => now < e

/-- Members of the sessions set for `uid` visible at instant `now`. -/
def Store.liveSessions (st : Store) (now : Nat) (uid : String) : List String :=
  if keyLive (st.sessionsExp uid) now then st.sessions uid else []

/-- Timestamps of the sorted-set key `k` visible at instant `now`. -/
def Store.liveWindow (st : Store) (now : Nat) (k : String) : List Nat :=
  if keyLive (st.windowExp k) now then st.window k else []

/-- Absolute expiry of the lock flag for `idf` if it exists at `now`. -/
def Store.liveLock (st : Store) (now : Nat) (idf : String) : Option Nat :=
  match st.lockExp idf with
  | none => none
  | some e => if now < e then some e else none

/-- `ZADD key (str ts) ts`: inserts the timestamp unless the member is
already present (member and score are both the integer second, so two
events in the same second collapse into one entry). -/
def zadd (l : List Nat) (ts : Nat) : List Nat :=
  if ts ∈ l then l else ts :: l

/-- `ZREMRANGEBYSCORE key 0 (now - window)`: drops every timestamp in
`[0, now - window]`.  The bound is computed in `Int` as in Python, so when
`now < window` nothing is dropped. -/
def purgeWindow (l : List Nat) (now window : Nat) : List Nat :=
  l.filter (fun ts => (now : Int) - (window : Int) < (ts : Int))

/-- `ZRANGE key 0 0`: smallest member of the sorted set, here computed as
the minimum timestamp. -/
def zsetOldest : List Nat → Option Nat
  | [] => none
  | t :: rest =>
    match zsetOldest rest with
    | none => some t
    | some m => some (Nat.min t m)

/-- `TokenBlacklist.blacklist_token`: tombstones `jti` with
`ttl = max(exp - now, 0)` and, inside the same `ttl > 0` guard, SREMs the
id from the owner's session set when an owner is supplied.  When the token
is already expired (`ttl = 0`) the whole body is skipped. -/
def blacklistToken (st : Store) (jti : String) (exp : Nat) (userId : Option String) (now : Nat) : Store :=
  let ttl := exp - now
  if 0 < ttl then
    let st1 := { st with blacklistExp := setFun st.blacklistExp jti (some (now + ttl)) }
    match userId with
    | some uid =>
        { st1 with sessions := setFun st1.sessions uid ((st1.liveSessions now uid).filter (· ≠ jti)) }
    | none => st1
  else st

/-- `TokenBlacklist.is_blacklisted`: EXISTS on the tombstone key. -/
def isBlacklisted (st : Store) (jti : String) (now : Nat) : Bool :=
  keyLive (st.blacklistExp jti) now

/-- `TokenBlacklist.add_user_session`: SADD the id, then EXPIRE the set. -/
def addUserSession (st : Store) (uid jti : String) (ttl now : Nat) : Store :=
  let cur := st.liveSessions now uid
  let cur1 := if jti ∈ cur then cur else jti :: cur
  { st with
      sessions := setFun st.sessions uid cur1
      sessionsExp := setFun st.sessionsExp uid (some (now + ttl)) }

/-- `TokenBlacklist.invalidate_all_user_sessions`: SMEMBERS, then a
tombstone with the flat fallback TTL (`refresh_token_expire_days` in
seconds) for every member, then DEL of the set; returns the member count. -/
def invalidateAllUserSessions (st : Store) (uid : String) (now : Nat) : Nat × Store :=
  let ss := st.liveSessions now uid
  if ss.isEmpty then (0, st)
  else
    let st1 := { st with blacklistExp := fun j => if j ∈ ss then some (now + refreshTokenTtl) else st.blacklistExp j }
    let st2 := { st1 with
        sessions := setFun st1.sessions uid []
        sessionsExp := setFun st1.sessionsExp uid none }
    (ss.length, st2)

/-- `RateLimiter.check_rate_limit`: the pipelined purge / ZCARD / ZADD /
EXPIRE, with the count taken before the insertion, then the allow/deny
decision; on denial the oldest surviving member yields `retry_after`,
floored at 1. -/
def checkRateLimit (st : Store) (key : String) (limit window : Nat) (pre : String) (now : Nat) :
    (Bool × Nat × Nat) × Store :=
  let rkey := pre ++ key
  let w0 := st.liveWindow now rkey
  let w1 := purgeWindow w0 now window
  let requestCount := w1.length
  let w2 := zadd w1 now
  let st1 := { st with
      window := setFun st.window rkey w2
      windowExp := setFun st.windowExp rkey (some (now + window)) }
  if limit ≤ requestCount then
    let retryAfter : Int :=
      match zsetOldest w2 with
      | some oldest => (oldest : Int) + (window : Int) - (now : Int)
      | none => (window : Int)
    ((false, 0, (max retryAfter 1).toNat), st1)
  else
    ((true, limit - requestCount - 1, 0), st1)

/-- The Redis key of the failed-login window for `idf`
(`LOGIN_PREFIX + "failed:" + identifier`). -/
def failedKey (idf : String) : String := "ratelimit:login:failed:" ++ idf

/-- `RateLimiter.lock_account`: SET the lock flag with
`ex = LOCKOUT_DURATION`. -/
def lockAccount (st : Store) (idf : String) (now : Nat) : Store :=
  { st with lockExp := setFun st.lockExp idf (some (now + lockoutDuration)) }

/-- `RateLimiter.record_failed_login`: pipelined purge / ZADD / ZCARD /
EXPIRE (note the count here is taken after the insertion), then lock the
account and return `(true, 0)` once the count reaches
`MAX_FAILED_ATTEMPTS`, else return `(false, MAX_FAILED_ATTEMPTS - count)`. -/
def recordFailedLogin (st : Store) (idf : String) (now : Nat) : (Bool × Nat) × Store :=
  let k := failedKey idf
  let w0 := st.liveWindow now k
  let w1 := purgeWindow w0 now loginRateLimitWindow
  let w2 := zadd w1 now
  let failureCount := w2.length
  let st1 := { st with
      window := setFun st.window k w2
      windowExp := setFun st.windowExp k (some (now + loginRateLimitWindow)) }
  if maxFailedAttempts ≤ failureCount then
    ((true, 0), lockAccount st1 idf now)
  else
    ((false, maxFailedAttempts - failureCount), st1)

/-- `RateLimiter.clear_failed_logins`: DEL the failed-login window. -/
def clearFailedLogins (st : Store) (idf : String) : Store :=
  { st with
      window := setFun st.window (failedKey idf) []
      windowExp := setFun st.windowExp (failedKey idf) none }

/-- `RateLimiter.is_account_locked`: EXISTS on the lock flag, then TTL;
returns `(true, remaining seconds)` when the flag is present. -/
def isAccountLocked (st : Store) (idf : String) (now : Nat) : Bool × Option Nat :=
  match st.liveLock now idf with
  | none => (false, none)
  | some e => (true, some (e - now))

/-- `RateLimiter.unlock_account`: DEL the lock flag, then clear the
failed-login window. -/
def unlockAccount (st : Store) (idf : String) : Store :=
  clearFailedLogins { st with lockExp := setFun st.lockExp idf none } idf

/-- `JWTService.verify_token` through python-jose: signature failure or an
undecodable payload raises `JWTError` → `TokenInvalidError`; a verified
signature with `exp < now` raises `ExpiredSignatureError` →
`TokenExpiredError`; otherwise the decoded claims are returned (a token is
accepted at the exact second `now = exp`). -/
def jwtVerify (tok : Token) (now : Nat) : Except AuthError TokenPayload :=
  match tok with
  | .malformed => .error .tokenInvalid
  | .signed p => if p.exp < now then .error .tokenExpired else .ok p

/-- A row of the user table, with the fields the auth service reads. -/
structure User where
  id : String
  email : String
  role : String
  isActive : Bool
  passwordHash : String
deriving DecidableEq, Repr

/-- Modelled abstraction of the Argon2 `PasswordHasher.hash` collaborator:
an injective encoding standing for the KDF digest (salt and cost
parameters, which the claims never inspect, are elided). -/
def hashPassword (pw : String) : String := "argon2:" ++ pw

/-- `PasswordHasher.verify`: recompute-and-compare, `false` on mismatch. -/
def verifyPassword (pw digest : String) : Bool := digest = hashPassword pw

/-- Combined state the auth service acts on: the Redis `Store` plus the
user table reached through `UserRepository`. -/
structure AuthState where
  store : Store
  users : List User

/-- The `TokenResponse` returned by `login` / `refresh_tokens`, with each
JWT represented by its signed claims. -/
structure TokenPair where
  accessToken : TokenPayload
  refreshToken : TokenPayload
  tokenType : String
  expiresIn : Nat
deriving DecidableEq, Repr

/-- Claims minted by `JWTService.create_access_token` at `now` for user
`u` with fresh id `jti`. -/
def accessPayload (u : User) (now : Nat) (jti : String) : TokenPayload :=
  { sub := u.id, email := u.email, role := u.role, type := "access"
    jti := jti, iat := now, exp := now + accessTokenTtl }

/-- Claims minted by `JWTService.create_refresh_token` at `now` for user
`u` with fresh id `jti`. -/
def refreshPayload (u : User) (now : Nat) (jti : String) : TokenPayload :=
  { sub := u.id, email := u.email, role := u.role, type := "refresh"
    jti := jti, iat := now, exp := now + refreshTokenTtl }

/-- `AuthService._create_tokens`: mint the access and refresh claims, SADD
only the refresh token's id into the user's session set (TTL = refresh
lifetime), and build the response.  The fresh random ids produced by
`uuid.uuid4()` are passed in as `accessJti` / `refreshJti`. -/
def createTokens (st : AuthState) (u : User) (now : Nat) (accessJti refreshJti : String) :
    TokenPair × AuthState :=
  let a := accessPayload u now accessJti
  let r := refreshPayload u now refreshJti
  let store1 := addUserSession st.store u.id refreshJti refreshTokenTtl now
  ({ accessToken := a, refreshToken := r, tokenType := "bearer", expiresIn := accessTokenTtl },
   { st with store := store1 })

/-- `UserRepository.get_by_email`. -/
def findByEmail (users : List User) (email : String) : Option User :=
  users.find? (fun u => u.email = email)

/-- `UserRepository.get` (lookup by primary key). -/
def findById (users : List User) (uid : String) : Option User :=
  users.find? (fun u => u.id = uid)

/-- `AuthService.login`: lock gate, identity lookup, active check,
password check with failed-attempt accounting, then clear-and-issue. -/
def login (st : AuthState) (email pw : String) (now : Nat) (accessJti refreshJti : String) :
    Except AuthError (User × TokenPair) × AuthState :=
  match isAccountLocked st.store email now with
  | (true, remaining) => (.error (.accountLocked remaining), st)
  | (false, _) =>
    match findByEmail st.users email with
    | none =>
      let r := recordFailedLogin st.store email now
      (.error .invalidCredentials, { st with store := r.2 })
    | some u =>
      if !u.isActive then (.error .authenticationFailed, st)
      else if !verifyPassword pw u.passwordHash then
        let r := recordFailedLogin st.store email now
        if r.1.1 then (.error (.accountLocked none), { st with store := r.2 })
        else (.error .invalidCredentials, { st with store := r.2 })
      else
        let st1 : AuthState := { st with store := clearFailedLogins st.store email }
        let p := createTokens st1 u now accessJti refreshJti
        (.ok (u, p.1), p.2)

/-- `AuthService.refresh_tokens`: verify, require `type == "refresh"`,
blacklist gate, identity resolution, rotate (blacklist the presented id
for its owner), then issue a fresh pair. -/
def refreshTokens (st : AuthState) (tok : Token) (now : Nat) (accessJti refreshJti : String) :
    Except AuthError TokenPair × AuthState :=
  match jwtVerify tok now with
  | .error e => (.error e, st)
  | .ok p =>
    if p.type ≠ "refresh" then (.error .tokenInvalid, st)
    else if isBlacklisted st.store p.jti now then (.error .tokenBlacklisted, st)
    else
      match findById st.users p.sub with
      | none => (.error .tokenInvalid, st)
      | some u =>
        if !u.isActive then (.error .tokenInvalid, st)
        else
          let st1 : AuthState := { st with store := blacklistToken st.store p.jti p.exp (some p.sub) now }
          let q := createTokens st1 u now accessJti refreshJti
          (.ok q.1, q.2)

/-- `AuthService.verify_token`: verify, require `type == "access"`, then
the blacklist gate; read-only. -/
def verifyAccessToken (st : AuthState) (tok : Token) (now : Nat) : Except AuthError TokenPayload :=
  match jwtVerify tok now with
  | .error e => .error e
  | .ok p =>
    if p.type ≠ "access" then .error .tokenInvalid
    else if isBlacklisted st.store p.jti now then .error .tokenBlacklisted
    else .ok p

/-- One `try: verify-and-blacklist except (TokenExpiredError,
TokenInvalidError): pass` block of `AuthService.logout`. -/
def logoutOne (store : Store) (tok : Token) (now : Nat) : Store :=
  match jwtVerify tok now with
  | .ok p => blacklistToken store p.jti p.exp (some p.sub) now
  | .error _ => store

/-- `AuthService.logout`: best-effort blacklisting of the access token and
then the refresh token. -/
def logout (st : AuthState) (accessTok refreshTok : Token) (now : Nat) : AuthState :=
  { st with store := logoutOne (logoutOne st.store accessTok now) refreshTok now }

/-- `AuthService.logout_all_devices`. -/
def logoutAllDevices (st : AuthState) (uid : String) (now : Nat) : Nat × AuthState :=
  let r := invalidateAllUserSessions st.store uid now
  (r.1, { st with store := r.2 })

/-- `AuthService.change_password`: verify the current password (failing
`InvalidCredentialsError` with no state change), persist the new hash via
the repository, then invalidate every session of the user. -/
def changePassword (st : AuthState) (u : User) (currentPw newPw : String) (now : Nat) :
    Except AuthError Unit × AuthState :=
  if !verifyPassword currentPw u.passwordHash then (.error .invalidCredentials, st)
  else
    let newHash := hashPassword newPw
    let users1 := st.users.map (fun x => if x.id = u.id then { x with passwordHash := newHash } else x)
    let r := invalidateAllUserSessions st.store u.id now
    (.ok (), { st with users := users1, store := r.2 })

/-- Folds `check_rate_limit` over a list of request instants for one
identifier, collecting each call's `(allowed, remaining, retry_after)`. -/
def runChecks (key : String) (limit window : Nat) (pre : String) :
    Store → List Nat → List (Bool × Nat × Nat) × Store
  | st, [] => ([], st)
  | st, t :: rest =>
    let p := checkRateLimit st key limit window pre t
    let q := runChecks key limit window pre p.2 rest
    (p.1 :: q.1, q.2)

/-- Folds `login` (with a fixed wrong password) over a list of attempt
instants, tracking the evolving state. -/
def loginChain (email pw : String) (jti : String) : AuthState → List Nat → AuthState
  | st, [] => st
  | st, t :: rest => loginChain email pw jti (login st email pw t jti jti).2 rest

/-- The count `record_failed_login` compares against the limit: size of the
failed-login window after the purge and the insertion of `now`. -/
def failedCount (st : Store) (idf : String) (now : Nat) : Nat :=
  (zadd (purgeWindow (st.liveWindow now (failedKey idf)) now loginRateLimitWindow) now).length

/-- The per-call outputs the specification predicts for a run of
`check_rate_limit` calls: with `prev` earlier in-window request instants
already recorded, a call at `t` is allowed with
`remaining = limit - count - 1` while the pre-insertion count `prev.length`
is below the limit, and otherwise denied with
`retry_after = max(oldest + window - now, 1)`. -/
def expectedChecks (limit window : Nat) : List Nat → List Nat → List (Bool × Nat × Nat)
  | _, [] => []
  | prev, t :: rest =>
    (if prev.length < limit then (true, limit - prev.length - 1, 0)
     else (false, 0, (max ((((prev ++ [t]).headD 0 : Int)) + (window : Int) - (t : Int)) 1).toNat))
      :: expectedChecks limit window (prev ++ [t]) rest

instance {ε α : Type} [DecidableEq ε] [DecidableEq α] : DecidableEq (Except ε α)
  | .ok x, .ok y => decidable_of_iff (x = y) (by simp)
  | .ok _, .error _ => isFalse (by simp)
  | .error _, .ok _ => isFalse (by simp)
  | .error e, .error f => decidable_of_iff (e = f) (by simp)

/-- A store holding one session id `"j"` for user `"u"`, used by concrete
evaluations below. -/
def sessionStore : Store :=
  { emptyStore with
      sessions := setFun emptyStore.sessions "u" ["j"]
      sessionsExp := setFun emptyStore.sessionsExp "u" (some 1000000) }

/-- A concrete active user whose password is `"pw"`. -/
def demoUser : User :=
  { id := "u1", email := "alice@x.com", role := "developer", isActive := true
    passwordHash := hashPassword "pw" }

/-- Fresh store plus the single user `demoUser`. -/
def demoState : AuthState := { store := emptyStore, users := [demoUser] }

/-- Claims of a refresh token for `demoUser` expiring at second 100. -/
def demoRefreshPayload : TokenPayload :=
  { sub := "u1", email := "alice@x.com", role := "developer", type := "refresh"
    jti := "r1", iat := 0, exp := 100 }

/-- The signed refresh token carrying `demoRefreshPayload`. -/
def demoRefreshTok : Token := .signed demoRefreshPayload

/-- Claims of an access token for user `"u"` with id `"j"` expiring at
second 100, matching the session held in `sessionStore`. -/
def demoAccessPayload : TokenPayload :=
  { sub := "u", email := "bob@x.com", role := "developer", type := "access"
    jti := "j", iat := 0, exp := 100 }

/-- A store holding one live session id `"r1"` for user `"u1"`. -/
def demoSessionStore : Store :=
  { emptyStore with
      sessions := setFun emptyStore.sessions "u1" ["r1"]
      sessionsExp := setFun emptyStore.sessionsExp "u1" (some 1000000) }

/-- `demoSessionStore` together with `demoUser`. -/
def demoSessionState : AuthState := { store := demoSessionStore, users := [demoUser] }

/-- Claims of the refresh token whose id `"r1"` is tracked in
`demoSessionStore`, issued at second 0. -/
def demoOldRefresh : TokenPayload :=
  { sub := "u1", email := "alice@x.com", role := "developer", type := "refresh"
    jti := "r1", iat := 0, exp := refreshTokenTtl }

/-- A store in which the failed-login window for `"eve@x.com"` already
holds four timestamps and no account is locked. -/
def lockDemoStore : Store :=
  { emptyStore with
      window := setFun emptyStore.window (failedKey "eve@x.com") [1, 2, 3, 4]
      windowExp := setFun emptyStore.windowExp (failedKey "eve@x.com") (some 100) }

/-- `lockDemoStore` with an empty user table: no identity exists for
`"eve@x.com"`. -/
def lockDemoState : AuthState := { store := lockDemoStore, users := [] }

lemma setFun_self {α : Type} (f : String → α) (k : String) (v : α) : setFun f k v k = v := by
  simp [setFun]

lemma setFun_ne {α : Type} (f : String → α) (k k' : String) (v : α) (h : k' ≠ k) :
    setFun f k v k' = f k' := by
  simp [setFun, h]

/-- Claim C2: `VerifyAccessToken(token)` returns the decoded payload iff the
signature verifies, the token is unexpired, its type is `"access"` and its
jti is not blacklisted; otherwise it fails with exactly one of
`TokenExpired` (past expiry), `TokenInvalid` (bad signature / malformed
token or wrong type), or `TokenBlacklisted` (tombstoned jti), with
signature/expiry checked before the type check and the type check before
the blacklist check (each error characterization below only constrains the
checks up to its position in that order). -/
theorem verifyAccessToken_characterization :
    ∀ (st : AuthState) (tok : Token) (now : Nat),
    (∀ p : TokenPayload,
      verifyAccessToken st tok now = .ok p ↔
        (tok = .signed p ∧ now ≤ p.exp ∧ p.type = "access" ∧
         isBlacklisted st.store p.jti now = false))
    ∧ (verifyAccessToken st tok now = .error .tokenExpired ↔
        ∃ p : TokenPayload, tok = .signed p ∧ p.exp < now)
    ∧ (verifyAccessToken st tok now = .error .tokenInvalid ↔
        (tok = .malformed ∨
         ∃ p : TokenPayload, tok = .signed p ∧ now ≤ p.exp ∧ p.type ≠ "access"))
    ∧ (verifyAccessToken st tok now = .error .tokenBlacklisted ↔
        ∃ p : TokenPayload, tok = .signed p ∧ now ≤ p.exp ∧ p.type = "access" ∧
          isBlacklisted st.store p.jti now = true) := by
  intro st tok now
  cases tok with
  | malformed => simp [verifyAccessToken, jwtVerify]
  | signed q =>
    by_cases hexp : q.exp < now
    · have hR : verifyAccessToken st (.signed q) now = .error .tokenExpired := by
        simp [verifyAccessToken, jwtVerify, hexp]
      rw [hR]
      refine ⟨fun p => ?_, ?_, ?_, ?_⟩
      · constructor
        · intro h; exact absurd h (by simp)
        · rintro ⟨hpq, hle, -, -⟩
          injection hpq with h; subst h; omega
      · exact iff_of_true rfl ⟨q, rfl, hexp⟩
      · constructor
        · intro h; exact absurd h (by simp)
        · rintro (h | ⟨p, hpq, hle, -⟩)
          · exact absurd h (by simp)
          · injection hpq with h; subst h; omega
      · constructor
        · intro h; exact absurd h (by simp)
        · rintro ⟨p, hpq, hle, -⟩
          injection hpq with h; subst h; omega
    · have hle : now ≤ q.exp := Nat.not_lt.mp hexp
      by_cases hty : q.type = "access"
      · by_cases hbl : isBlacklisted st.store q.jti now = true
        · have hR : verifyAccessToken st (.signed q) now = .error .tokenBlacklisted := by
            simp [verifyAccessToken, jwtVerify, hexp, hty, hbl]
          rw [hR]
          refine ⟨fun p => ?_, ?_, ?_, ?_⟩
          · constructor
            · intro h; exact absurd h (by simp)
            · rintro ⟨hpq, -, -, hbf⟩
              injection hpq with h; subst h
              rw [hbl] at hbf; exact absurd hbf (by simp)
          · constructor
            · intro h; exact absurd h (by simp)
            · rintro ⟨p, hpq, hx⟩
              injection hpq with h; subst h; omega
          · constructor
            · intro h; exact absurd h (by simp)
            · rintro (h | ⟨p, hpq, -, hne⟩)
              · exact absurd h (by simp)
              · injection hpq with h; subst h; exact absurd hty hne
          · exact iff_of_true rfl ⟨q, rfl, hle, hty, hbl⟩
        · have hbl' : isBlacklisted st.store q.jti now = false := by
            cases h : isBlacklisted st.store q.jti now
            · rfl
            · exact absurd h hbl
          have hR : verifyAccessToken st (.signed q) now = .ok q := by
            simp [verifyAccessToken, jwtVerify, hexp, hty, hbl']
          rw [hR]
          refine ⟨fun p => ?_, ?_, ?_, ?_⟩
          · constructor
            · intro h
              injection h with h; subst h
              exact ⟨rfl, hle, hty, hbl'⟩
            · rintro ⟨hpq, -, -, -⟩
              injection hpq with h; subst h; rfl
          · constructor
            · intro h; exact absurd h (by simp)
            · rintro ⟨p, hpq, hx⟩
              injection hpq with h; subst h; omega
          · constructor
            · intro h; exact absurd h (by simp)
            · rintro (h | ⟨p, hpq, -, hne⟩)
              · exact absurd h (by simp)
              · injection hpq with h; subst h; exact absurd hty hne
          · constructor
            · intro h; exact absurd h (by simp)
            · rintro ⟨p, hpq, -, -, hbt⟩
              injection hpq with h; subst h
              rw [hbl'] at hbt; exact absurd hbt (by simp)
      · have hR : verifyAccessToken st (.signed q) now = .error .tokenInvalid := by
          simp [verifyAccessToken, jwtVerify, hexp, hty]
        rw [hR]
        refine ⟨fun p => ?_, ?_, ?_, ?_⟩
        · constructor
          · intro h; exact absurd h (by simp)
          · rintro ⟨hpq, -, hacc, -⟩
            injection hpq with h; subst h; exact absurd hacc hty
        · constructor
          · intro h; exact absurd h (by simp)
          · rintro ⟨p, hpq, hx⟩
            injection hpq with h; subst h; omega
        · exact iff_of_true rfl (Or.inr ⟨q, rfl, hle, hty⟩)
        · constructor
          · intro h; exact absurd h (by simp)
          · rintro ⟨p, hpq, -, hacc, -⟩
            injection hpq with h; subst h; exact absurd hacc hty

lemma blacklistToken_noop (st : Store) (jti : String) (exp now : Nat) (owner : Option String)
    (hle : exp ≤ now) : blacklistToken st jti exp owner now = st := by
  have h0 : exp - now = 0 := Nat.sub_eq_zero_of_le hle
  simp [blacklistToken, h0]

lemma blacklistToken_blacklistExp_self (st : Store) (jti : String) (exp now : Nat)
    (owner : Option String) (hlt : now < exp) :
    (blacklistToken st jti exp owner now).blacklistExp jti = some (now + (exp - now)) := by
  cases owner with
  | none => simp [blacklistToken, hlt, setFun_self]
  | some o => simp [blacklistToken, hlt, setFun_self]

lemma blacklistToken_live_iff (st : Store) (jti : String) (exp now : Nat)
    (owner : Option String) (hlt : now < exp) (t : Nat) :
    isBlacklisted (blacklistToken st jti exp owner now) jti t = true ↔ t < exp := by
  have hsum : now + (exp - now) = exp := by omega
  cases owner with
  | none => simp [isBlacklisted, blacklistToken, hlt, setFun_self, keyLive, hsum]
  | some o => simp [isBlacklisted, blacklistToken, hlt, setFun_self, keyLive, hsum]

lemma blacklistToken_srem (st : Store) (jti : String) (exp now : Nat) (o : String)
    (hlt : now < exp) :
    jti ∉ (blacklistToken st jti exp (some o) now).sessions o := by
  simp [blacklistToken, hlt, setFun_self, List.mem_filter]

lemma blacklistToken_blacklistExp_ne (st : Store) (jti : String) (exp now : Nat)
    (owner : Option String) (j : String) (hne : j ≠ jti) :
    (blacklistToken st jti exp owner now).blacklistExp j = st.blacklistExp j := by
  by_cases hlt : now < exp
  · cases owner with
    | none => simp [blacklistToken, hlt, setFun_ne _ _ _ _ hne]
    | some o => simp [blacklistToken, hlt, setFun_ne _ _ _ _ hne]
  · rw [blacklistToken_noop st jti exp now owner (by omega)]

lemma blacklistToken_lockExp (st : Store) (jti : String) (exp now : Nat) (owner : Option String) :
    (blacklistToken st jti exp owner now).lockExp = st.lockExp := by
  by_cases hlt : now < exp
  · cases owner with
    | none => simp [blacklistToken, hlt]
    | some o => simp [blacklistToken, hlt]
  · rw [blacklistToken_noop st jti exp now owner (by omega)]

lemma addUserSession_blacklistExp (st : Store) (uid jti : String) (ttl now : Nat) :
    (addUserSession st uid jti ttl now).blacklistExp = st.blacklistExp := rfl

lemma addUserSession_lockExp (st : Store) (uid jti : String) (ttl now : Nat) :
    (addUserSession st uid jti ttl now).lockExp = st.lockExp := rfl

lemma addUserSession_window (st : Store) (uid jti : String) (ttl now : Nat) :
    (addUserSession st uid jti ttl now).window = st.window := rfl

lemma addUserSession_windowExp (st : Store) (uid jti : String) (ttl now : Nat) :
    (addUserSession st uid jti ttl now).windowExp = st.windowExp := rfl

/-- Claim C7 (amended): `blacklist_token` is a complete no-op (and in
particular never errors) when the token is already expired, and otherwise
sets a tombstone with TTL `exp - now = max(exp - now, 0)` — so the
tombstone is live exactly strictly before `expires_at` and never persists
past it — and removes the id from the owner's session set whenever an
owner is given *and* the token is not yet expired (the removal, like the
tombstone, sits inside the `ttl > 0` guard). -/
theorem blacklistToken_spec :
    ∀ (st : Store) (jti : String) (exp now : Nat) (owner : Option String),
    (exp ≤ now → blacklistToken st jti exp owner now = st)
    ∧ (now < exp →
        (blacklistToken st jti exp owner now).blacklistExp jti = some (now + (exp - now))
        ∧ (∀ t : Nat, isBlacklisted (blacklistToken st jti exp owner now) jti t = true ↔ t < exp)
        ∧ (∀ o : String, owner = some o → jti ∉ (blacklistToken st jti exp owner now).sessions o)) := by
  intro st jti exp now owner
  refine ⟨blacklistToken_noop st jti exp now owner, fun hlt => ⟨?_, ?_, ?_⟩⟩
  · exact blacklistToken_blacklistExp_self st jti exp now owner hlt
  · exact blacklistToken_live_iff st jti exp now owner hlt
  · intro o ho
    subst ho
    exact blacklistToken_srem st jti exp now o hlt

/-- Witness for C7: at a concrete store, an unexpired revocation sets the
tombstone and removes the session id, and an expired one is a no-op. -/
theorem blacklistToken_spec_witness :
    (blacklistToken sessionStore "j" 100 (some "u") 50).blacklistExp "j" = some (50 + (100 - 50))
    ∧ blacklistToken sessionStore "j" 40 (some "u") 50 = sessionStore
    ∧ "j" ∉ (blacklistToken sessionStore "j" 100 (some "u") 50).sessions "u" :=
  ⟨((blacklistToken_spec sessionStore "j" 100 50 (some "u")).2 (by decide)).1,
   (blacklistToken_spec sessionStore "j" 40 50 (some "u")).1 (by decide),
   ((blacklistToken_spec sessionStore "j" 100 50 (some "u")).2 (by decide)).2.2 "u" rfl⟩

/-- Counterexample for C7 as stated: the claim promises that *whenever* an
owner is given the id is removed from the owner's session set, but for an
already-expired token (`exp = now = 100`) the code skips the entire
`ttl > 0` block, leaving `"j"` in the session set (and setting no
tombstone). -/
theorem blacklistToken_counterexample :
    "j" ∈ (blacklistToken sessionStore "j" 100 (some "u") 100).sessions "u"
    ∧ (blacklistToken sessionStore "j" 100 (some "u") 100).blacklistExp "j" = none := by
  decide

/-- Claim C1 (amended): a refresh token accepted by one successful
`RefreshTokens` call made strictly before the token's expiry second is
tombstoned by the rotation, so any second `RefreshTokens` call with the
same token that also happens strictly before the expiry second fails
`TokenBlacklisted`.  (At or past the expiry second the guarantee lapses:
see the counterexample.) -/
theorem refreshTokens_replay (st st' : AuthState) (p : TokenPayload) (now₁ now₂ : Nat)
    (aJ rJ aJ2 rJ2 : String) (tp : TokenPair)
    (h1 : refreshTokens st (.signed p) now₁ aJ rJ = (.ok tp, st'))
    (hlt1 : now₁ < p.exp) (hlt2 : now₂ < p.exp) :
    (refreshTokens st' (.signed p) now₂ aJ2 rJ2).1 = .error .tokenBlacklisted := by
  have hnexp1 : ¬ p.exp < now₁ := by omega
  have hnexp2 : ¬ p.exp < now₂ := by omega
  simp only [refreshTokens, jwtVerify, if_neg hnexp1] at h1
  by_cases hty : p.type = "refresh"
  · rw [if_neg (not_not_intro hty)] at h1
    by_cases hbl : isBlacklisted st.store p.jti now₁ = true
    · rw [if_pos hbl] at h1
      exact absurd (congrArg Prod.fst h1) (by simp)
    · rw [if_neg hbl] at h1
      cases hf : findById st.users p.sub with
      | none =>
        simp only [hf] at h1
        exact absurd (congrArg Prod.fst h1) (by simp)
      | some u =>
        simp only [hf] at h1
        by_cases hact : u.isActive = true
        · rw [if_neg (by simp [hact])] at h1
          have h1b : (createTokens ⟨blacklistToken st.store p.jti p.exp (some p.sub) now₁,
              st.users⟩ u now₁ aJ rJ).2 = st' := congrArg Prod.snd h1
          have hst' : st'.store
              = addUserSession (blacklistToken st.store p.jti p.exp (some p.sub) now₁)
                  u.id rJ refreshTokenTtl now₁ := by
            rw [← h1b]
            rfl
          have hbe : st'.store.blacklistExp p.jti = some (now₁ + (p.exp - now₁)) := by
            rw [hst', addUserSession_blacklistExp]
            exact blacklistToken_blacklistExp_self _ _ _ _ _ hlt1
          have hbl2 : isBlacklisted st'.store p.jti now₂ = true := by
            simp only [isBlacklisted, hbe, keyLive]
            simp only [decide_eq_true_eq]
            omega
          simp [refreshTokens, jwtVerify, hnexp2, hty, hbl2]
        · rw [if_pos (by simp [hact])] at h1
          exact absurd (congrArg Prod.fst h1) (by simp)
  · rw [if_pos hty] at h1
    exact absurd (congrArg Prod.fst h1) (by simp)

/-- Witness for C1: a concrete first refresh at second 10 followed by a
replay at second 20 hits the blacklist. -/
theorem refreshTokens_replay_witness :
    (refreshTokens (refreshTokens demoState demoRefreshTok 10 "a1" "r2").2
        demoRefreshTok 20 "a3" "r4").1 = .error .tokenBlacklisted := by
  have h1a : (refreshTokens demoState demoRefreshTok 10 "a1" "r2").1
      = .ok { accessToken := accessPayload demoUser 10 "a1"
              refreshToken := refreshPayload demoUser 10 "r2"
              tokenType := "bearer", expiresIn := accessTokenTtl } := by
    decide
  have h1 : refreshTokens demoState demoRefreshTok 10 "a1" "r2"
      = (.ok { accessToken := accessPayload demoUser 10 "a1"
               refreshToken := refreshPayload demoUser 10 "r2"
               tokenType := "bearer", expiresIn := accessTokenTtl },
         (refreshTokens demoState demoRefreshTok 10 "a1" "r2").2) :=
    Prod.ext h1a rfl
  exact refreshTokens_replay demoState _ demoRefreshPayload 10 20 "a1" "r2" "a3" "r4" _ h1
    (by decide) (by decide)

/-- Counterexample for C1 as stated: after an accepted refresh at second 50
(strictly before expiry 100), a replay at second 150 fails `TokenExpired`,
not `TokenBlacklisted`; worse, a refresh accepted exactly at the expiry
second 100 computes blacklist TTL 0, skips the tombstone, and the replay at
second 100 *succeeds*. -/
theorem refreshTokens_replay_counterexample :
    ((refreshTokens demoState demoRefreshTok 50 "a1" "r2").1).isOk = true
    ∧ (refreshTokens (refreshTokens demoState demoRefreshTok 50 "a1" "r2").2
        demoRefreshTok 150 "a3" "r4").1 = .error .tokenExpired
    ∧ ((refreshTokens demoState demoRefreshTok 100 "b1" "s2").1).isOk = true
    ∧ ((refreshTokens (refreshTokens demoState demoRefreshTok 100 "b1" "s2").2
        demoRefreshTok 100 "b3" "s4").1).isOk = true := by
  decide

/-- Claim C8 (amended): `Logout` is total — verification failures (which
are always `TokenExpired` or `TokenInvalid`) are swallowed with no state
change for that token, never surfacing to the caller; a token that
verifies with *nonzero* remaining lifetime has its jti tombstoned with TTL
exactly the remaining lifetime and removed from its owner's session set; a
token that verifies exactly at its expiry second (remaining lifetime 0)
changes nothing, because the whole blacklisting body sits behind the
`ttl > 0` guard. -/
theorem logout_spec :
    ∀ (st : AuthState) (a r : Token) (now : Nat),
    logout st a r now = { st with store := logoutOne (logoutOne st.store a now) r now }
    ∧ (∀ (store : Store) (tok : Token),
        (∀ e, jwtVerify tok now = .error e →
          (e = .tokenExpired ∨ e = .tokenInvalid) ∧ logoutOne store tok now = store)
        ∧ (∀ p, jwtVerify tok now = .ok p → now < p.exp →
            (logoutOne store tok now).blacklistExp p.jti = some (now + (p.exp - now))
            ∧ (∀ t, isBlacklisted (logoutOne store tok now) p.jti t = true ↔ t < p.exp)
            ∧ p.jti ∉ (logoutOne store tok now).sessions p.sub)
        ∧ (∀ p, jwtVerify tok now = .ok p → p.exp ≤ now → logoutOne store tok now = store)) := by
  intro st a r now
  refine ⟨rfl, fun store tok => ⟨?_, ?_, ?_⟩⟩
  · intro e he
    cases tok with
    | malformed =>
      refine ⟨?_, rfl⟩
      injection he with h
      exact Or.inr h.symm
    | signed p =>
      by_cases hexp : p.exp < now
      · have hv : jwtVerify (.signed p) now = .error .tokenExpired := by
          simp [jwtVerify, hexp]
        rw [hv] at he
        injection he with h
        exact ⟨Or.inl h.symm, by simp [logoutOne, hv]⟩
      · have hv : jwtVerify (.signed p) now = .ok p := by
          simp [jwtVerify, hexp]
        rw [hv] at he
        exact absurd he (by simp)
  · intro p hp hlt
    have hone : logoutOne store tok now = blacklistToken store p.jti p.exp (some p.sub) now := by
      simp [logoutOne, hp]
    rw [hone]
    exact ⟨blacklistToken_blacklistExp_self _ _ _ _ _ hlt,
           blacklistToken_live_iff _ _ _ _ _ hlt,
           blacklistToken_srem _ _ _ _ _ hlt⟩
  · intro p hp hle
    have hone : logoutOne store tok now = blacklistToken store p.jti p.exp (some p.sub) now := by
      simp [logoutOne, hp]
    rw [hone, blacklistToken_noop _ _ _ _ _ hle]

/-- Witness for C8: at second 50 the access token verifies and is
tombstoned with its 50 remaining seconds and dropped from the session set,
while a malformed token leaves the store untouched. -/
theorem logout_spec_witness :
    (logoutOne sessionStore (.signed demoAccessPayload) 50).blacklistExp "j" = some (50 + (100 - 50))
    ∧ "j" ∉ (logoutOne sessionStore (.signed demoAccessPayload) 50).sessions "u"
    ∧ logoutOne sessionStore .malformed 50 = sessionStore := by
  obtain ⟨-, h2⟩ := logout_spec ⟨sessionStore, []⟩ .malformed .malformed 50
  obtain ⟨herr, hok, -⟩ := h2 sessionStore (.signed demoAccessPayload)
  obtain ⟨ha, -, hc⟩ := hok demoAccessPayload (by decide) (by decide)
  obtain ⟨hm, -⟩ := h2 sessionStore .malformed
  obtain ⟨-, hmeq⟩ := hm .tokenInvalid (by decide)
  exact ⟨ha, hc, hmeq⟩

/-- Counterexample for C8 as stated: a token that verifies exactly at its
expiry second (`now = exp = 100`) is *not* blacklisted and *not* removed
from its owner's session set, contradicting the claim's unconditional
"if it verifies, its jti is blacklisted … and removed". -/
theorem logout_counterexample :
    jwtVerify (.signed demoAccessPayload) 100 = .ok demoAccessPayload
    ∧ "j" ∈ (logout ⟨sessionStore, []⟩ (.signed demoAccessPayload) .malformed 100).store.sessions "u"
    ∧ (logout ⟨sessionStore, []⟩ (.signed demoAccessPayload) .malformed 100).store.blacklistExp "j" = none := by
  decide

lemma login_locked_branch (st : AuthState) (e pw : String) (now : Nat) (aJ rJ : String)
    (rem : Option Nat) (h : isAccountLocked st.store e now = (true, rem)) :
    login st e pw now aJ rJ = (.error (.accountLocked rem), st) := by
  simp [login, h]

lemma login_notfound_branch (st : AuthState) (e pw : String) (now : Nat) (aJ rJ : String)
    (h1 : isAccountLocked st.store e now = (false, none))
    (h2 : findByEmail st.users e = none) :
    login st e pw now aJ rJ
      = (.error .invalidCredentials, { st with store := (recordFailedLogin st.store e now).2 }) := by
  simp [login, h1, h2]

lemma login_inactive_branch (st : AuthState) (e pw : String) (now : Nat) (aJ rJ : String)
    (u : User) (h1 : isAccountLocked st.store e now = (false, none))
    (h2 : findByEmail st.users e = some u) (h3 : u.isActive = false) :
    login st e pw now aJ rJ = (.error .authenticationFailed, st) := by
  simp [login, h1, h2, h3]

lemma login_wrongpw_branch (st : AuthState) (e pw : String) (now : Nat) (aJ rJ : String)
    (u : User) (h1 : isAccountLocked st.store e now = (false, none))
    (h2 : findByEmail st.users e = some u) (h3 : u.isActive = true)
    (h4 : verifyPassword pw u.passwordHash = false) :
    login st e pw now aJ rJ
      = (if ((recordFailedLogin st.store e now).1).1 then .error (.accountLocked none)
         else .error .invalidCredentials,
         { st with store := (recordFailedLogin st.store e now).2 }) := by
  by_cases hl : ((recordFailedLogin st.store e now).1).1 = true
  · simp [login, h1, h2, h3, h4, hl]
  · simp only [Bool.not_eq_true] at hl
    simp [login, h1, h2, h3, h4, hl]

lemma login_success_branch (st : AuthState) (e pw : String) (now : Nat) (aJ rJ : String)
    (u : User) (h1 : isAccountLocked st.store e now = (false, none))
    (h2 : findByEmail st.users e = some u) (h3 : u.isActive = true)
    (h4 : verifyPassword pw u.passwordHash = true) :
    login st e pw now aJ rJ
      = (.ok (u, (createTokens { st with store := clearFailedLogins st.store e } u now aJ rJ).1),
         (createTokens { st with store := clearFailedLogins st.store e } u now aJ rJ).2) := by
  simp [login, h1, h2, h3, h4]

/-- Claim C5: `Login` checks in a fixed order — a locked account fails
`AccountLocked` carrying the remaining seconds before any lookup or
password work (the state is untouched); an unknown email records a failed
attempt and fails `InvalidCredentials`; an inactive identity fails
`AuthenticationFailed` with no failed attempt recorded (state untouched);
a wrong password records a failed attempt and fails `AccountLocked`
exactly when that attempt newly locks, else `InvalidCredentials`; success
clears the failed-attempt window before the token pair is issued (the
issuance acts on the cleared store, and the window stays erased in the
final state). -/
theorem login_order_spec (st : AuthState) (e pw : String) (now : Nat) (aJ rJ : String) :
    (∀ rem, isAccountLocked st.store e now = (true, rem) →
      login st e pw now aJ rJ = (.error (.accountLocked rem), st))
    ∧ (isAccountLocked st.store e now = (false, none) → findByEmail st.users e = none →
        login st e pw now aJ rJ
          = (.error .invalidCredentials, { st with store := (recordFailedLogin st.store e now).2 }))
    ∧ (∀ u, isAccountLocked st.store e now = (false, none) → findByEmail st.users e = some u →
        u.isActive = false →
        login st e pw now aJ rJ = (.error .authenticationFailed, st))
    ∧ (∀ u, isAccountLocked st.store e now = (false, none) → findByEmail st.users e = some u →
        u.isActive = true → verifyPassword pw u.passwordHash = false →
        login st e pw now aJ rJ
          = (if ((recordFailedLogin st.store e now).1).1 then .error (.accountLocked none)
             else .error .invalidCredentials,
             { st with store := (recordFailedLogin st.store e now).2 }))
    ∧ (∀ u, isAccountLocked st.store e now = (false, none) → findByEmail st.users e = some u →
        u.isActive = true → verifyPassword pw u.passwordHash = true →
        login st e pw now aJ rJ
          = (.ok (u, (createTokens { st with store := clearFailedLogins st.store e } u now aJ rJ).1),
             (createTokens { st with store := clearFailedLogins st.store e } u now aJ rJ).2)
        ∧ (login st e pw now aJ rJ).2.store.windowExp (failedKey e) = none) := by
  refine ⟨fun rem h => login_locked_branch st e pw now aJ rJ rem h,
          fun h1 h2 => login_notfound_branch st e pw now aJ rJ h1 h2,
          fun u h1 h2 h3 => login_inactive_branch st e pw now aJ rJ u h1 h2 h3,
          fun u h1 h2 h3 h4 => login_wrongpw_branch st e pw now aJ rJ u h1 h2 h3 h4,
          fun u h1 h2 h3 h4 => ⟨login_success_branch st e pw now aJ rJ u h1 h2 h3 h4, ?_⟩⟩
  rw [login_success_branch st e pw now aJ rJ u h1 h2 h3 h4]
  show (addUserSession (clearFailedLogins st.store e) u.id rJ refreshTokenTtl now).windowExp
      (failedKey e) = none
  rw [addUserSession_windowExp]
  simp [clearFailedLogins, setFun_self]

/-- Witness for C5: with the demo user, a wrong-password login fails
`InvalidCredentials` (one recorded attempt, far from the lockout
threshold), and a correct-password login succeeds with the failed-attempt
window erased. -/
theorem login_order_spec_witness :
    (login demoState "alice@x.com" "wrong" 5 "a1" "r1").1 = .error .invalidCredentials
    ∧ (login demoState "alice@x.com" "pw" 5 "a1" "r1").1
        = .ok (demoUser, (createTokens { demoState with
            store := clearFailedLogins demoState.store "alice@x.com" } demoUser 5 "a1" "r1").1)
    ∧ (login demoState "alice@x.com" "pw" 5 "a1" "r1").2.store.windowExp
        (failedKey "alice@x.com") = none := by
  have hw := (login_order_spec demoState "alice@x.com" "wrong" 5 "a1" "r1").2.2.2.1 demoUser
    (by decide) (by decide) (by decide) (by decide)
  have hs := (login_order_spec demoState "alice@x.com" "pw" 5 "a1" "r1").2.2.2.2 demoUser
    (by decide) (by decide) (by decide) (by decide)
  refine ⟨?_, ?_, hs.2⟩
  · rw [hw]
    decide
  · rw [hs.1]

lemma recordFailedLogin_result (st : Store) (idf : String) (now : Nat) :
    (recordFailedLogin st idf now).1
      = if maxFailedAttempts ≤ failedCount st idf now then (true, 0)
        else (false, maxFailedAttempts - failedCount st idf now) := by
  by_cases h : maxFailedAttempts ≤ failedCount st idf now
  · rw [if_pos h]
    simp only [failedCount] at h
    simp [recordFailedLogin, h]
  · rw [if_neg h]
    simp only [failedCount] at h
    simp [recordFailedLogin, h, failedCount]

lemma recordFailedLogin_lockExp_locked (st : Store) (idf : String) (now : Nat)
    (h : maxFailedAttempts ≤ failedCount st idf now) :
    (recordFailedLogin st idf now).2.lockExp idf = some (now + lockoutDuration) := by
  simp only [failedCount] at h
  simp [recordFailedLogin, h, lockAccount, setFun_self]

lemma recordFailedLogin_lockExp_unlocked (st : Store) (idf : String) (now : Nat)
    (h : failedCount st idf now < maxFailedAttempts) :
    (recordFailedLogin st idf now).2.lockExp = st.lockExp := by
  have h' : ¬ maxFailedAttempts ≤ failedCount st idf now := by omega
  simp only [failedCount] at h'
  simp [recordFailedLogin, h']

lemma recordFailedLogin_window (st : Store) (idf : String) (now : Nat) :
    (recordFailedLogin st idf now).2.window (failedKey idf)
      = zadd (purgeWindow (st.liveWindow now (failedKey idf)) now loginRateLimitWindow) now
    ∧ (recordFailedLogin st idf now).2.windowExp (failedKey idf)
      = some (now + loginRateLimitWindow) := by
  by_cases h : maxFailedAttempts ≤ (zadd (purgeWindow (st.liveWindow now (failedKey idf)) now
      loginRateLimitWindow) now).length
  · constructor <;> simp [recordFailedLogin, h, lockAccount, setFun_self]
  · constructor <;> simp [recordFailedLogin, h, setFun_self]

/-- Claim C10: when `Login` is called with an unknown email and the failed
attempt it records is the one that crosses the lockout threshold, the call
still fails `InvalidCredentials` — the locked-now result is discarded on
this path — and it is the next `Login` call for that email (any password)
that fails `AccountLocked` with the remaining lock seconds. -/
theorem login_unknownEmail_lockout (st : AuthState) (e pw pw2 : String) (now now2 : Nat)
    (aJ rJ aJ2 rJ2 : String)
    (hnl : st.store.liveLock now e = none)
    (hnf : findByEmail st.users e = none)
    (hcross : ((recordFailedLogin st.store e now).1).1 = true)
    (hwin : now2 < now + lockoutDuration) :
    (login st e pw now aJ rJ).1 = .error .invalidCredentials
    ∧ (login (login st e pw now aJ rJ).2 e pw2 now2 aJ2 rJ2).1
        = .error (.accountLocked (some (now + lockoutDuration - now2))) := by
  have hla : isAccountLocked st.store e now = (false, none) := by
    simp [isAccountLocked, hnl]
  have hfull := login_notfound_branch st e pw now aJ rJ hla hnf
  have hlocked : 5 ≤ failedCount st.store e now := by
    by_contra hc
    rw [recordFailedLogin_result] at hcross
    rw [if_neg (by simpa [maxFailedAttempts] using hc)] at hcross
    exact absurd hcross (by simp)
  have hle : (login st e pw now aJ rJ).2.store.lockExp e = some (now + lockoutDuration) := by
    rw [hfull]
    exact recordFailedLogin_lockExp_locked st.store e now
      (by simpa [maxFailedAttempts] using hlocked)
  constructor
  · rw [hfull]
  · have hlock2 : isAccountLocked (login st e pw now aJ rJ).2.store e now2
        = (true, some (now + lockoutDuration - now2)) := by
      simp [isAccountLocked, Store.liveLock, hle, hwin]
    rw [login_locked_branch _ e pw2 now2 aJ2 rJ2 _ hlock2]

/-- Witness for C10: with four prior failed attempts recorded for the
unknown email, a fifth wrong login at second 5 crosses the threshold yet
fails `InvalidCredentials`; the next login at second 10 fails
`AccountLocked` with 895 seconds remaining. -/
theorem login_unknownEmail_lockout_witness :
    (login lockDemoState "eve@x.com" "pw" 5 "a1" "r1").1 = .error .invalidCredentials
    ∧ (login (login lockDemoState "eve@x.com" "pw" 5 "a1" "r1").2 "eve@x.com" "pw" 10 "a2" "r2").1
        = .error (.accountLocked (some (5 + lockoutDuration - 10))) :=
  login_unknownEmail_lockout lockDemoState "eve@x.com" "pw" "pw" 5 10 "a1" "r1" "a2" "r2"
    (by decide) (by decide) (by decide) (by decide)

lemma invalidateAll_blacklistExp_mem (st : Store) (uid : String) (now : Nat) (j : String)
    (hj : j ∈ st.liveSessions now uid) :
    (invalidateAllUserSessions st uid now).2.blacklistExp j = some (now + refreshTokenTtl) := by
  unfold invalidateAllUserSessions
  cases hss : st.liveSessions now uid with
  | nil => rw [hss] at hj; cases hj
  | cons x xs =>
    rw [hss] at hj
    rcases List.mem_cons.mp hj with h | h
    · simp [hss, List.isEmpty, h]
    · simp [hss, List.isEmpty, h]

lemma invalidateAll_blacklistExp_notmem (st : Store) (uid : String) (now : Nat) (j : String)
    (hj : j ∉ st.liveSessions now uid) :
    (invalidateAllUserSessions st uid now).2.blacklistExp j = st.blacklistExp j := by
  unfold invalidateAllUserSessions
  cases hss : st.liveSessions now uid with
  | nil => simp [hss, List.isEmpty]
  | cons x xs =>
    rw [hss] at hj
    have h1 : ¬ j = x := fun h => hj (by simp [h])
    have h2 : j ∉ xs := fun h => hj (List.mem_cons_of_mem _ h)
    simp [hss, List.isEmpty, h1, h2]

lemma invalidateAll_count (st : Store) (uid : String) (now : Nat) :
    (invalidateAllUserSessions st uid now).1 = (st.liveSessions now uid).length := by
  unfold invalidateAllUserSessions
  cases hss : st.liveSessions now uid with
  | nil => simp [hss, List.isEmpty]
  | cons x xs => simp [hss, List.isEmpty]

lemma invalidateAll_sessions_deleted (st : Store) (uid : String) (now : Nat)
    (h : st.liveSessions now uid ≠ []) :
    (invalidateAllUserSessions st uid now).2.sessions uid = []
    ∧ (invalidateAllUserSessions st uid now).2.sessionsExp uid = none := by
  unfold invalidateAllUserSessions
  cases hss : st.liveSessions now uid with
  | nil => exact absurd hss h
  | cons x xs => constructor <;> simp [hss, List.isEmpty, setFun_self]

/-- Claim C6: `ChangePassword` with a wrong current password fails
`InvalidCredentials` with the state fully unchanged; with the correct one
it persists the new hash and unconditionally invalidates all of the user's
sessions, so every session-set member is tombstoned (with the flat
7-day fallback TTL) and a refresh token issued (strictly) before the
change, still unexpired when presented, subsequently fails
`TokenBlacklisted`. -/
theorem changePassword_spec (st : AuthState) (u : User) (currentPw newPw : String) (now : Nat) :
    (verifyPassword currentPw u.passwordHash = false →
      changePassword st u currentPw newPw now = (.error .invalidCredentials, st))
    ∧ (verifyPassword currentPw u.passwordHash = true →
        (changePassword st u currentPw newPw now).1 = .ok ()
        ∧ (∀ x ∈ (changePassword st u currentPw newPw now).2.users,
            x.id = u.id → x.passwordHash = hashPassword newPw)
        ∧ (∀ j ∈ st.store.liveSessions now u.id,
            (changePassword st u currentPw newPw now).2.store.blacklistExp j
              = some (now + refreshTokenTtl))
        ∧ (∀ (p : TokenPayload) (now2 : Nat) (aJ rJ : String),
            p.type = "refresh" → p.jti ∈ st.store.liveSessions now u.id →
            p.exp = p.iat + refreshTokenTtl → p.iat < now → ¬ p.exp < now2 →
            (refreshTokens (changePassword st u currentPw newPw now).2 (.signed p) now2 aJ rJ).1
              = .error .tokenBlacklisted)) := by
  constructor
  · intro h
    simp [changePassword, h]
  · intro h
    have hstore : (changePassword st u currentPw newPw now).2.store
        = (invalidateAllUserSessions st.store u.id now).2 := by
      simp [changePassword, h]
    have husers : (changePassword st u currentPw newPw now).2.users
        = st.users.map (fun x => if x.id = u.id then { x with passwordHash := hashPassword newPw }
            else x) := by
      simp [changePassword, h]
    refine ⟨by simp [changePassword, h], ?_, ?_, ?_⟩
    · intro x hx hid
      rw [husers] at hx
      obtain ⟨y, hy, hxy⟩ := List.mem_map.mp hx
      by_cases hyid : y.id = u.id
      · rw [if_pos hyid] at hxy
        rw [← hxy]
      · rw [if_neg hyid] at hxy
        rw [← hxy] at hid
        exact absurd hid hyid
    · intro j hj
      rw [hstore]
      exact invalidateAll_blacklistExp_mem st.store u.id now j hj
    · intro p now2 aJ rJ hty hmem hexp hiat hne
      have hbe : (changePassword st u currentPw newPw now).2.store.blacklistExp p.jti
          = some (now + refreshTokenTtl) := by
        rw [hstore]
        exact invalidateAll_blacklistExp_mem st.store u.id now p.jti hmem
      have hbl : isBlacklisted (changePassword st u currentPw newPw now).2.store p.jti now2
          = true := by
        simp only [isBlacklisted, hbe, keyLive, decide_eq_true_eq]
        omega
      simp [refreshTokens, jwtVerify, hne, hty, hbl]

/-- Witness for C6: with the session `"r1"` live for `demoUser`, a wrong
current password leaves everything unchanged, and the real change at
second 50 tombstones `"r1"` so the old refresh token is rejected as
blacklisted at second 100. -/
theorem changePassword_spec_witness :
    changePassword demoSessionState demoUser "bad" "new" 50 = (.error .invalidCredentials, demoSessionState)
    ∧ (changePassword demoSessionState demoUser "pw" "new" 50).1 = .ok ()
    ∧ (changePassword demoSessionState demoUser "pw" "new" 50).2.store.blacklistExp "r1"
        = some (50 + refreshTokenTtl)
    ∧ (refreshTokens (changePassword demoSessionState demoUser "pw" "new" 50).2
        (.signed demoOldRefresh) 100 "a9" "r9").1 = .error .tokenBlacklisted := by
  have hw := (changePassword_spec demoSessionState demoUser "bad" "new" 50).1 (by decide)
  have hc := (changePassword_spec demoSessionState demoUser "pw" "new" 50).2 (by decide)
  exact ⟨hw, hc.1, hc.2.2.1 "r1" (by decide),
    hc.2.2.2 demoOldRefresh 100 "a9" "r9" (by decide) (by decide) (by decide) (by decide)
      (by decide)⟩

lemma liveSessions_subset (st : Store) (now : Nat) (uid : String) (j : String)
    (h : j ∈ st.liveSessions now uid) : j ∈ st.sessions uid := by
  unfold Store.liveSessions at h
  by_cases hl : keyLive (st.sessionsExp uid) now = true
  · rwa [if_pos hl] at h
  · rw [if_neg hl] at h
    cases h

lemma addUserSession_mem_self (st : Store) (uid jti : String) (ttl now : Nat) :
    jti ∈ (addUserSession st uid jti ttl now).sessions uid := by
  show jti ∈ setFun st.sessions uid
    (if jti ∈ st.liveSessions now uid then st.liveSessions now uid
     else jti :: st.liveSessions now uid) uid
  rw [setFun_self]
  by_cases h : jti ∈ st.liveSessions now uid
  · rw [if_pos h]; exact h
  · rw [if_neg h]; exact List.mem_cons_self _ _

lemma addUserSession_not_mem (st : Store) (uid jti : String) (ttl now : Nat) (x w : String)
    (hx : ∀ v, x ∉ st.sessions v) (hne : x ≠ jti) :
    x ∉ (addUserSession st uid jti ttl now).sessions w := by
  show x ∉ setFun st.sessions uid
    (if jti ∈ st.liveSessions now uid then st.liveSessions now uid
     else jti :: st.liveSessions now uid) w
  by_cases hw : w = uid
  · subst hw
    rw [setFun_self]
    intro hmem
    by_cases h : jti ∈ st.liveSessions now w
    · rw [if_pos h] at hmem
      exact hx w (liveSessions_subset _ _ _ _ hmem)
    · rw [if_neg h] at hmem
      rcases List.mem_cons.mp hmem with h1 | h1
      · exact hne h1
      · exact hx w (liveSessions_subset _ _ _ _ h1)
  · rw [setFun_ne _ _ _ _ hw]
    exact hx w

/-- Claim C9: `_create_tokens` records only the refresh token's jti in the
user's session set, never the access token's jti; `invalidate_all_sessions`
(as reached through `LogoutAll` or `ChangePassword`) changes tombstones only
for members of that set — hence only refresh ids; consequently an
unexpired access token issued before the invalidation still passes
`VerifyAccessToken` afterwards (fresh-jti hypotheses reflect
`uuid.uuid4()` uniqueness). -/
theorem createTokens_session_refresh_only (st st1 st2 : AuthState) (u : User)
    (now now2 now3 : Nat) (aJ rJ uid2 : String)
    (hst1 : st1 = (createTokens st u now aJ rJ).2)
    (hst2 : st2 = (logoutAllDevices st1 uid2 now2).2)
    (hbl : st.store.blacklistExp aJ = none)
    (hss : ∀ w, aJ ∉ st.store.sessions w)
    (hne : aJ ≠ rJ)
    (hexp : ¬ (accessPayload u now aJ).exp < now3) :
    rJ ∈ st1.store.sessions u.id
    ∧ (∀ w, aJ ∉ st1.store.sessions w)
    ∧ (∀ j, st2.store.blacklistExp j ≠ st1.store.blacklistExp j →
        j ∈ st1.store.liveSessions now2 uid2)
    ∧ verifyAccessToken st2 (.signed (accessPayload u now aJ)) now3
        = .ok (accessPayload u now aJ) := by
  have hnotmem1 : ∀ w, aJ ∉ st1.store.sessions w := by
    intro w
    rw [hst1]
    exact addUserSession_not_mem st.store u.id rJ refreshTokenTtl now aJ w hss hne
  have hpart3 : ∀ j, st2.store.blacklistExp j ≠ st1.store.blacklistExp j →
      j ∈ st1.store.liveSessions now2 uid2 := by
    intro j hnej
    by_contra hnot
    apply hnej
    rw [hst2]
    exact invalidateAll_blacklistExp_notmem st1.store uid2 now2 j hnot
  refine ⟨?_, hnotmem1, hpart3, ?_⟩
  · rw [hst1]
    exact addUserSession_mem_self st.store u.id rJ refreshTokenTtl now
  · have haJ1 : st1.store.blacklistExp aJ = none := by
      rw [hst1]
      exact hbl
    have haJnotlive : aJ ∉ st1.store.liveSessions now2 uid2 := fun h =>
      hnotmem1 uid2 (liveSessions_subset _ _ _ _ h)
    have haJ2 : st2.store.blacklistExp aJ = none := by
      rw [hst2]
      rw [show ((logoutAllDevices st1 uid2 now2).2).store
          = (invalidateAllUserSessions st1.store uid2 now2).2 from rfl]
      rw [invalidateAll_blacklistExp_notmem st1.store uid2 now2 aJ haJnotlive]
      exact haJ1
    have hblf : isBlacklisted st2.store aJ now3 = false := by
      simp [isBlacklisted, haJ2, keyLive]
    have hexp2 : ¬ now + accessTokenTtl < now3 := by
      simpa [accessPayload] using hexp
    simp [verifyAccessToken, jwtVerify, accessPayload, hexp2, hblf]

/-- Witness for C9: tokens issued at second 10, a logout-all at second 20,
and the access token still verifying at second 30. -/
theorem createTokens_session_refresh_only_witness :
    "r1" ∈ ((createTokens demoState demoUser 10 "a1" "r1").2).store.sessions "u1"
    ∧ verifyAccessToken ((logoutAllDevices (createTokens demoState demoUser 10 "a1" "r1").2
        "u1" 20).2) (.signed (accessPayload demoUser 10 "a1")) 30
        = .ok (accessPayload demoUser 10 "a1") := by
  obtain ⟨h1, -, -, h4⟩ := createTokens_session_refresh_only demoState
    ((createTokens demoState demoUser 10 "a1" "r1").2)
    ((logoutAllDevices (createTokens demoState demoUser 10 "a1" "r1").2 "u1" 20).2)
    demoUser 10 20 30 "a1" "r1" "u1" rfl rfl (by decide)
    (fun w h => List.not_mem_nil _ h) (by decide) (by decide)
  exact ⟨h1, h4⟩

lemma zsetOldest_mem : ∀ (l : List Nat) (m : Nat), zsetOldest l = some m → m ∈ l := by
  intro l
  induction l with
  | nil => intro m h; cases h
  | cons a l ih =>
    intro m h
    unfold zsetOldest at h
    cases hz : zsetOldest l with
    | none =>
      rw [hz] at h
      injection h with h
      subst h
      exact List.mem_cons_self _ _
    | some mm =>
      rw [hz] at h
      injection h with h
      by_cases hle : a ≤ mm
      · rw [show Nat.min a mm = a by simp [Nat.min_def, hle]] at h
        subst h
        exact List.mem_cons_self _ _
      · rw [show Nat.min a mm = mm by simp [Nat.min_def, hle]] at h
        subst h
        exact List.mem_cons_of_mem _ (ih mm hz)

lemma zsetOldest_lb : ∀ (l : List Nat) (m : Nat), zsetOldest l = some m → ∀ x ∈ l, m ≤ x := by
  intro l
  induction l with
  | nil => intro m h; cases h
  | cons a l ih =>
    intro m h x hx
    unfold zsetOldest at h
    cases hz : zsetOldest l with
    | none =>
      rw [hz] at h
      injection h with h
      subst h
      have hl : l = [] := by
        cases l with
        | nil => rfl
        | cons b l2 =>
          unfold zsetOldest at hz
          cases hzz : zsetOldest l2 <;> rw [hzz] at hz <;> cases hz
      subst hl
      rcases List.mem_cons.mp hx with h1 | h1
      · omega
      · cases h1
    | some mm =>
      rw [hz] at h
      injection h with h
      subst h
      rcases List.mem_cons.mp hx with h1 | h1
      · subst h1; exact Nat.min_le_left _ _
      · exact le_trans (Nat.min_le_right a mm) (ih mm hz x h1)

lemma zsetOldest_eq_min (l : List Nat) (m : Nat) (hm : m ∈ l) (hlb : ∀ x ∈ l, m ≤ x) :
    zsetOldest l = some m := by
  cases h : zsetOldest l with
  | none =>
    cases l with
    | nil => cases hm
    | cons a l2 =>
      unfold zsetOldest at h
      cases hz : zsetOldest l2 <;> rw [hz] at h <;> cases h
  | some mm =>
    have h1 : mm ∈ l := zsetOldest_mem l mm h
    have h2 : ∀ x ∈ l, mm ≤ x := zsetOldest_lb l mm h
    rw [le_antisymm (h2 m hm) (hlb mm h1)]

lemma purgeWindow_keep (l : List Nat) (now window : Nat)
    (h : ∀ x ∈ l, now < x + window) : purgeWindow l now window = l := by
  unfold purgeWindow
  apply List.filter_eq_self.mpr
  intro a ha
  have := h a ha
  simp only [decide_eq_true_eq]
  omega

lemma zadd_not_mem (l : List Nat) (t : Nat) (h : t ∉ l) : zadd l t = t :: l := by
  simp [zadd, h]

lemma checkRateLimit_step (st : Store) (key pre : String) (limit window now : Nat)
    (prev : List Nat)
    (hwin : st.liveWindow now (pre ++ key) = prev.reverse)
    (hsorted : prev.Pairwise (· < ·))
    (hkeep : ∀ x ∈ prev, now < x + window)
    (hlt : ∀ x ∈ prev, x < now) :
    checkRateLimit st key limit window pre now
      = ((if limit ≤ prev.length then
            (false, 0,
             (max (((prev ++ [now]).headD 0 : Int) + (window : Int) - (now : Int)) 1).toNat)
          else (true, limit - prev.length - 1, 0)),
         { st with
             window := setFun st.window (pre ++ key) (now :: prev.reverse)
             windowExp := setFun st.windowExp (pre ++ key) (some (now + window)) }) := by
  have hpurge : purgeWindow prev.reverse now window = prev.reverse :=
    purgeWindow_keep _ _ _ (fun x hx => hkeep x (List.mem_reverse.mp hx))
  have hnm : now ∉ prev.reverse := by
    rw [List.mem_reverse]
    intro h
    exact absurd (hlt now h) (lt_irrefl now)
  have hold : zsetOldest (now :: prev.reverse) = some ((prev ++ [now]).headD 0) := by
    cases prev with
    | nil => exact zsetOldest_eq_min [now] now (List.mem_cons_self _ _) (by simp)
    | cons p prev2 =>
      have hh : ((p :: prev2) ++ [now]).headD 0 = p := rfl
      rw [hh]
      apply zsetOldest_eq_min
      · exact List.mem_cons_of_mem _ (List.mem_reverse.mpr (List.mem_cons_self _ _))
      · intro x hx
        obtain ⟨hp, -⟩ := List.pairwise_cons.mp hsorted
        rcases List.mem_cons.mp hx with h1 | h1
        · subst h1
          exact le_of_lt (hlt p (List.mem_cons_self _ _))
        · rcases List.mem_cons.mp (List.mem_reverse.mp h1) with h2 | h2
          · subst h2
            exact le_refl _
          · exact le_of_lt (hp x h2)
  simp only [checkRateLimit, hwin, hpurge, zadd_not_mem _ _ hnm, hold,
    List.length_reverse]
  by_cases hc : limit ≤ prev.length
  · rw [if_pos hc, if_pos hc]
  · rw [if_neg hc, if_neg hc]

lemma runChecks_go (key pre : String) (limit window : Nat) :
    ∀ (ts prev : List Nat) (st : Store),
    (prev ++ ts).Pairwise (· < ·) →
    (∀ a ∈ prev ++ ts, ∀ b ∈ prev ++ ts, b < a + window) →
    (∀ t rest, ts = t :: rest → st.liveWindow t (pre ++ key) = prev.reverse) →
    (runChecks key limit window pre st ts).1 = expectedChecks limit window prev ts := by
  intro ts
  induction ts with
  | nil => intro prev st _ _ _; rfl
  | cons t rest ih =>
    intro prev st hpair hspread hwin
    have hwt : st.liveWindow t (pre ++ key) = prev.reverse := hwin t rest rfl
    obtain ⟨hp1, hp2, hp12⟩ := List.pairwise_append.mp hpair
    have hltp : ∀ x ∈ prev, x < t := fun x hx => hp12 x hx t (List.mem_cons_self _ _)
    have hkeep : ∀ x ∈ prev, t < x + window := by
      intro x hx
      exact hspread x (List.mem_append.mpr (Or.inl hx)) t
        (List.mem_append.mpr (Or.inr (List.mem_cons_self _ _)))
    have hstep := checkRateLimit_step st key pre limit window t prev hwt hp1 hkeep hltp
    have htail : (runChecks key limit window pre (checkRateLimit st key limit window pre t).2
        rest).1 = expectedChecks limit window (prev ++ [t]) rest := by
      apply ih (prev ++ [t])
      · rw [List.append_assoc]
        exact hpair
      · intro a ha b hb
        rw [List.append_assoc] at ha hb
        exact hspread a ha b hb
      · intro t2 rest2 hr
        subst hr
        rw [hstep]
        show Store.liveWindow _ t2 (pre ++ key) = (prev ++ [t]).reverse
        unfold Store.liveWindow
        have hlive : keyLive (some (t + window)) t2 = true := by
          simp only [keyLive, decide_eq_true_eq]
          exact hspread t (List.mem_append.mpr (Or.inr (List.mem_cons_self _ _))) t2
            (List.mem_append.mpr (Or.inr (List.mem_cons_of_mem _ (List.mem_cons_self _ _))))
        simp only [setFun_self, hlive, if_true, List.reverse_append, List.reverse_cons,
          List.reverse_nil, List.nil_append, List.singleton_append]
    show ((checkRateLimit st key limit window pre t).1
        :: (runChecks key limit window pre (checkRateLimit st key limit window pre t).2 rest).1)
      = expectedChecks limit window prev (t :: rest)
    rw [htail, hstep]
    show (if limit ≤ prev.length then
            (false, 0,
             (max (((prev ++ [t]).headD 0 : Int) + (window : Int) - (t : Int)) 1).toNat)
          else (true, limit - prev.length - 1, 0)) :: expectedChecks limit window (prev ++ [t]) rest
      = expectedChecks limit window prev (t :: rest)
    rw [show expectedChecks limit window prev (t :: rest)
        = (if prev.length < limit then (true, limit - prev.length - 1, 0)
           else (false, 0,
             (max (((prev ++ [t]).headD 0 : Int) + (window : Int) - (t : Int)) 1).toNat))
          :: expectedChecks limit window (prev ++ [t]) rest from rfl]
    by_cases hc : limit ≤ prev.length
    · rw [if_pos hc, if_neg (by omega)]
    · rw [if_neg hc, if_pos (by omega)]

lemma getLastD_cons_irrel (b : Nat) (l : List Nat) (d d2 : Nat) :
    (b :: l).getLastD d = (b :: l).getLastD d2 := by
  rw [List.getLastD_cons, List.getLastD_cons]

lemma getLastD_append_single : ∀ (l : List Nat) (t d : Nat), (l ++ [t]).getLastD d = t := by
  intro l
  induction l with
  | nil => intro t d; rfl
  | cons a l2 ih =>
    intro t d
    rw [List.cons_append, List.getLastD_cons, ih]

lemma expectedChecks_closed (limit window : Nat) :
    ∀ (ts prev : List Nat), prev.length + ts.length = limit + 1 → ts ≠ [] →
    expectedChecks limit window prev ts
      = (List.range' prev.length (ts.length - 1)).map (fun c => (true, limit - c - 1, 0))
        ++ [(false, 0,
            (max (((prev ++ ts).headD 0 : Int) + (window : Int) - (ts.getLastD 0 : Int))
              1).toNat)] := by
  intro ts
  induction ts with
  | nil => intro prev _ hne; exact absurd rfl hne
  | cons t rest ih =>
    intro prev hlen _
    cases rest with
    | nil =>
      have h1 : expectedChecks limit window prev [t]
          = [(if prev.length < limit then (true, limit - prev.length - 1, 0)
              else (false, 0,
                (max (((prev ++ [t]).headD 0 : Int) + (window : Int) - (t : Int)) 1).toNat))] :=
        rfl
      have hpl : prev.length = limit := by
        simp only [List.length_cons, List.length_nil] at hlen
        omega
      rw [h1, if_neg (by omega)]
      rfl
    | cons r rest2 =>
      have hlt : prev.length < limit := by
        simp only [List.length_cons] at hlen
        omega
      have h1 : expectedChecks limit window prev (t :: r :: rest2)
          = (if prev.length < limit then (true, limit - prev.length - 1, 0)
             else (false, 0,
               (max (((prev ++ [t]).headD 0 : Int) + (window : Int) - (t : Int)) 1).toNat))
            :: expectedChecks limit window (prev ++ [t]) (r :: rest2) := rfl
      rw [h1, if_pos hlt]
      rw [ih (prev ++ [t])
        (by simp only [List.length_append, List.length_cons, List.length_nil] at hlen ⊢; omega)
        (by simp)]
      have hlen1 : (prev ++ [t]).length = prev.length + 1 := by simp
      rw [hlen1]
      have hr1 : (r :: rest2).length - 1 = rest2.length := by simp
      have hr2 : (t :: r :: rest2).length - 1 = rest2.length + 1 := by simp
      rw [hr1, hr2]
      rw [List.range'_succ prev.length rest2.length 1]
      rw [List.map_cons, List.cons_append]
      have hhead : ((prev ++ [t]) ++ r :: rest2).headD 0 = (prev ++ t :: r :: rest2).headD 0 := by
        rw [List.append_assoc, List.singleton_append]
      have hden : (t :: r :: rest2).getLastD 0 = (r :: rest2).getLastD 0 := by
        rw [List.getLastD_cons, getLastD_cons_irrel]
      rw [hhead, ← hden]

/-- Claim C3 (amended): for one identifier starting with no tracked
entries, `limit + 1` requests at pairwise *distinct* second-granularity
instants all within one window of each other are handled as the claim
says: the first `limit` are each allowed with `retry_after = 0` and
`remaining = limit - count - 1` where the count (taken after the purge and
before the insertion) is the request's index, and the `(limit+1)`-th is
denied with `retry_after = max(oldest surviving timestamp + window - now,
1) > 0`.  (As stated — without the distinct-seconds proviso — the claim is
false; see the counterexample.) -/
theorem checkRateLimit_sliding_window (key pre : String) (limit window : Nat)
    (ts : List Nat) (st : Store)
    (hfresh : st.windowExp (pre ++ key) = none)
    (hsort : ts.Pairwise (· < ·))
    (hspread : ∀ a ∈ ts, ∀ b ∈ ts, b < a + window)
    (hlen : ts.length = limit + 1) :
    (runChecks key limit window pre st ts).1
      = (List.range limit).map (fun c => (true, limit - c - 1, 0))
        ++ [(false, 0,
            (max ((ts.headD 0 : Int) + (window : Int) - (ts.getLastD 0 : Int)) 1).toNat)]
    ∧ 0 < (max ((ts.headD 0 : Int) + (window : Int) - (ts.getLastD 0 : Int)) 1).toNat := by
  have hgo := runChecks_go key pre limit window ts [] st (by simpa using hsort)
    (by simpa using hspread)
    (fun t rest hr => by simp [Store.liveWindow, hfresh, keyLive])
  have hne : ts ≠ [] := by
    intro h
    rw [h] at hlen
    simp at hlen
  have hclosed := expectedChecks_closed limit window ts [] (by simpa using hlen) hne
  constructor
  · rw [hgo, hclosed, hlen]
    simp [← List.range_eq_range']
  · have h1 : (1 : Int) ≤ max ((ts.headD 0 : Int) + (window : Int) - (ts.getLastD 0 : Int)) 1 :=
      le_max_right _ _
    omega

/-- Witness for C3: limit 2, window 60, requests at seconds 100, 101, 102:
allowed with remaining 1, allowed with remaining 0, denied with
retry_after 100 + 60 - 102 = 58. -/
theorem checkRateLimit_sliding_window_witness :
    (runChecks "ip" 2 60 "ratelimit:global:" emptyStore [100, 101, 102]).1
      = [(true, 1, 0), (true, 0, 0), (false, 0, 58)] := by
  have h := checkRateLimit_sliding_window "ip" "ratelimit:global:" 2 60 [100, 101, 102]
    emptyStore (by decide) (by decide) (by decide) (by decide)
  rw [h.1]
  decide

/-- Counterexample for C3 as stated: with limit 2 and window 60, three
requests in the *same* second collapse onto a single sorted-set member
(ZADD keyed by `str(timestamp)`), so the post-purge count stays at 1 and
the third request — the (limit+1)-th inside the window — is *allowed*
rather than denied. -/
theorem checkRateLimit_counterexample :
    (runChecks "ip" 2 60 "ratelimit:global:" emptyStore [100, 100, 100]).1
      = [(true, 1, 0), (true, 0, 0), (true, 0, 0)] := by
  decide

lemma recordFailedLogin_step (st : Store) (idf : String) (now : Nat) (prev : List Nat)
    (hwin : st.liveWindow now (failedKey idf) = prev.reverse)
    (hkeep : ∀ x ∈ prev, now < x + loginRateLimitWindow)
    (hnm : now ∉ prev) :
    recordFailedLogin st idf now
      = ((if maxFailedAttempts ≤ prev.length + 1 then (true, 0)
          else (false, maxFailedAttempts - (prev.length + 1))),
         (if maxFailedAttempts ≤ prev.length + 1 then
            lockAccount { st with
              window := setFun st.window (failedKey idf) (now :: prev.reverse)
              windowExp := setFun st.windowExp (failedKey idf)
                (some (now + loginRateLimitWindow)) } idf now
          else { st with
              window := setFun st.window (failedKey idf) (now :: prev.reverse)
              windowExp := setFun st.windowExp (failedKey idf)
                (some (now + loginRateLimitWindow)) })) := by
  have hpurge : purgeWindow prev.reverse now loginRateLimitWindow = prev.reverse :=
    purgeWindow_keep _ _ _ (fun x hx => hkeep x (List.mem_reverse.mp hx))
  have hnm2 : now ∉ prev.reverse := fun h => hnm (List.mem_reverse.mp h)
  have hlen : (now :: prev.reverse).length = prev.length + 1 := by simp
  simp only [recordFailedLogin, hwin, hpurge, zadd_not_mem _ _ hnm2, hlen]
  by_cases hc : maxFailedAttempts ≤ prev.length + 1
  · rw [if_pos hc, if_pos hc, if_pos hc]
  · rw [if_neg hc, if_neg hc, if_neg hc]

lemma loginChain_lock (e w jti : String) (u : User) :
    ∀ (l prev : List Nat) (st : AuthState),
    st.users = [u] → u.email = e → u.isActive = true →
    verifyPassword w u.passwordHash = false →
    (prev ++ l).Pairwise (· < ·) →
    (∀ a ∈ prev ++ l, ∀ b ∈ prev ++ l, b < a + loginRateLimitWindow) →
    st.store.lockExp e = none →
    prev.length + l.length ≤ maxFailedAttempts →
    (∀ t rest, l = t :: rest → st.store.liveWindow t (failedKey e) = prev.reverse) →
    (loginChain e w jti st l).users = [u]
    ∧ (loginChain e w jti st l).store.lockExp e
        = (if prev.length + l.length = maxFailedAttempts ∧ l ≠ []
           then some ((prev ++ l).getLastD 0 + lockoutDuration) else none) := by
  intro l
  induction l with
  | nil =>
    intro prev st hu he hact hpw hpair hspread hlock hle hwin
    refine ⟨hu, ?_⟩
    rw [if_neg (by simp)]
    exact hlock
  | cons t rest ih =>
    intro prev st hu he hact hpw hpair hspread hlock hle hwin
    have hla : isAccountLocked st.store e t = (false, none) := by
      simp [isAccountLocked, Store.liveLock, hlock]
    have hfind : findByEmail st.users e = some u := by
      rw [hu]
      simp [findByEmail, List.find?, he]
    have hstep := login_wrongpw_branch st e w t jti jti u hla hfind hact hpw
    obtain ⟨hp1, hp2, hp12⟩ := List.pairwise_append.mp hpair
    have hwt := hwin t rest rfl
    have hkeep : ∀ x ∈ prev, t < x + loginRateLimitWindow := fun x hx =>
      hspread x (List.mem_append.mpr (Or.inl hx)) t
        (List.mem_append.mpr (Or.inr (List.mem_cons_self _ _)))
    have hnm : t ∉ prev := fun h =>
      absurd (hp12 t h t (List.mem_cons_self _ _)) (lt_irrefl t)
    have hrec := recordFailedLogin_step st.store e t prev hwt hkeep hnm
    have hchain2 : loginChain e w jti st (t :: rest)
        = loginChain e w jti { st with store := (recordFailedLogin st.store e t).2 } rest := by
      rw [show loginChain e w jti st (t :: rest)
          = loginChain e w jti (login st e w t jti jti).2 rest from rfl, hstep]
    rw [hchain2]
    by_cases hc : maxFailedAttempts ≤ prev.length + 1
    · have hrest : rest = [] := by
        simp only [List.length_cons] at hle
        cases rest with
        | nil => rfl
        | cons a b =>
          simp only [List.length_cons] at hle
          omega
      subst hrest
      refine ⟨hu, ?_⟩
      show (recordFailedLogin st.store e t).2.lockExp e = _
      rw [hrec]
      simp only [if_pos hc]
      rw [show (lockAccount { st.store with
          window := setFun st.store.window (failedKey e) (t :: prev.reverse)
          windowExp := setFun st.store.windowExp (failedKey e)
            (some (t + loginRateLimitWindow)) } e t).lockExp e
          = some (t + lockoutDuration) from by simp [lockAccount, setFun_self]]
      have hlen5 : prev.length + ([t] : List Nat).length = maxFailedAttempts := by
        simp only [List.length_cons] at hle
        simp only [List.length_singleton]
        omega
      rw [if_pos ⟨hlen5, by simp⟩]
      rw [getLastD_append_single]
    · have hlock2 : ({ st with store := (recordFailedLogin st.store e t).2 } : AuthState).store.lockExp e
          = none := by
        show (recordFailedLogin st.store e t).2.lockExp e = none
        rw [hrec]
        simp only [if_neg hc]
        exact hlock
      have hwin2 : ∀ t2 rest2, rest = t2 :: rest2 →
          ({ st with store := (recordFailedLogin st.store e t).2 } : AuthState).store.liveWindow t2
            (failedKey e) = (prev ++ [t]).reverse := by
        intro t2 rest2 hr
        show (recordFailedLogin st.store e t).2.liveWindow t2 (failedKey e) = _
        rw [hrec]
        simp only [if_neg hc]
        unfold Store.liveWindow
        have hlive : keyLive (some (t + loginRateLimitWindow)) t2 = true := by
          simp only [keyLive, decide_eq_true_eq]
          subst hr
          exact hspread t (List.mem_append.mpr (Or.inr (List.mem_cons_self _ _))) t2
            (List.mem_append.mpr (Or.inr (List.mem_cons_of_mem _ (List.mem_cons_self _ _))))
        simp only [setFun_self, hlive, if_true, List.reverse_append, List.reverse_cons,
          List.reverse_nil, List.nil_append, List.singleton_append]
      obtain ⟨ihu, ihlock⟩ := ih (prev ++ [t])
        { st with store := (recordFailedLogin st.store e t).2 }
        hu he hact hpw
        (by rw [List.append_assoc, List.singleton_append]; exact hpair)
        (by intro a ha b hb
            rw [List.append_assoc, List.singleton_append] at ha hb
            exact hspread a ha b hb)
        hlock2
        (by simp only [List.length_append, List.length_cons, List.length_nil] at hle ⊢; omega)
        hwin2
      refine ⟨ihu, ?_⟩
      rw [ihlock]
      by_cases hr : rest = []
      · subst hr
        rw [if_neg (by simp), if_neg ?side]
        case side =>
          rintro ⟨hcnt, -⟩
          simp only [List.length_cons, List.length_nil] at hcnt
          omega
      · by_cases hcnt : prev.length + (t :: rest).length = maxFailedAttempts
        · rw [if_pos ⟨by simp only [List.length_append, List.length_cons, List.length_nil] at hcnt ⊢; omega, hr⟩,
            if_pos ⟨hcnt, by simp⟩]
          rw [List.append_assoc, List.singleton_append]
        · rw [if_neg ?s1, if_neg ?s2]
          case s1 =>
            rintro ⟨hx, -⟩
            simp only [List.length_append, List.length_cons, List.length_nil] at hx
            simp only [List.length_cons] at hcnt
            omega
          case s2 =>
            rintro ⟨hx, -⟩
            exact hcnt hx

/-- Claim C4 (amended): `record_failed_attempt` pushes a timestamp into
the failed-attempt sliding window and counts the entries (the count taken
after the insertion); when the count reaches `MAX_FAILED_ATTEMPTS = 5` it
sets the lock flag with a 900-second TTL and returns `(true, 0)`, else it
returns `(false, 5 - count)`.  Consequently 5 consecutive failed logins
for one email at pairwise *distinct* seconds within the login window lock
the account, and a subsequent login for that email — even with the
correct password — fails `AccountLocked` instead of `InvalidCredentials`.
(Without the distinct-seconds proviso the lockout part is false; see the
counterexample.) -/
theorem recordFailedLogin_lockout (st0 : AuthState) (u : User) (e w pw jti aJ rJ : String)
    (l : List Nat) (now6 : Nat) :
    (∀ (s : Store) (idf : String) (now : Nat),
      (recordFailedLogin s idf now).1
        = (if maxFailedAttempts ≤ failedCount s idf now then (true, 0)
           else (false, maxFailedAttempts - failedCount s idf now))
      ∧ (maxFailedAttempts ≤ failedCount s idf now →
          (recordFailedLogin s idf now).2.lockExp idf = some (now + lockoutDuration)))
    ∧ (st0.users = [u] → u.email = e → u.isActive = true →
        verifyPassword w u.passwordHash = false → verifyPassword pw u.passwordHash = true →
        l.Pairwise (· < ·) →
        (∀ a ∈ l, ∀ b ∈ l, b < a + loginRateLimitWindow) →
        st0.store.lockExp e = none →
        st0.store.windowExp (failedKey e) = none →
        l.length = maxFailedAttempts →
        now6 < l.getLastD 0 + lockoutDuration →
        (loginChain e w jti st0 l).store.lockExp e = some (l.getLastD 0 + lockoutDuration)
        ∧ (login (loginChain e w jti st0 l) e pw now6 aJ rJ).1
            = .error (.accountLocked (some (l.getLastD 0 + lockoutDuration - now6)))) := by
  constructor
  · intro s idf now
    exact ⟨recordFailedLogin_result s idf now, recordFailedLogin_lockExp_locked s idf now⟩
  · intro hu he hact hw hpw hsort hspread hlock hfresh hlen hnow
    have hne : l ≠ [] := by
      intro h
      rw [h] at hlen
      simp [maxFailedAttempts] at hlen
    obtain ⟨-, hlock5⟩ := loginChain_lock e w jti u l [] st0 hu he hact hw
      (by simpa using hsort) (by simpa using hspread) hlock
      (by simpa using Nat.le_of_eq hlen)
      (fun t rest hr => by simp [Store.liveWindow, hfresh, keyLive])
    rw [if_pos ⟨by simpa using hlen, hne⟩] at hlock5
    simp only [List.nil_append] at hlock5
    refine ⟨hlock5, ?_⟩
    have hla : isAccountLocked (loginChain e w jti st0 l).store e now6
        = (true, some (l.getLastD 0 + lockoutDuration - now6)) := by
      simp only [isAccountLocked, Store.liveLock, hlock5, if_pos hnow]
    rw [login_locked_branch _ e pw now6 aJ rJ _ hla]

/-- Witness for C4: five wrong-password logins for the demo user at
seconds 100 … 104 lock the account; the correct-password login at second
200 fails `AccountLocked` with 804 seconds remaining. -/
theorem recordFailedLogin_lockout_witness :
    (loginChain "alice@x.com" "wrong" "j" demoState [100, 101, 102, 103, 104]).store.lockExp
        "alice@x.com" = some (104 + lockoutDuration)
    ∧ (login (loginChain "alice@x.com" "wrong" "j" demoState [100, 101, 102, 103, 104])
        "alice@x.com" "pw" 200 "a" "r").1
        = .error (.accountLocked (some (104 + lockoutDuration - 200))) := by
  have h := (recordFailedLogin_lockout demoState demoUser "alice@x.com" "wrong" "pw" "j" "a" "r"
      [100, 101, 102, 103, 104] 200).2
    (by decide) (by decide) (by decide) (by decide) (by decide) (by decide) (by decide)
    (by decide) (by decide) (by decide) (by decide)
  exact h

/-- Counterexample for C4 as stated: five wrong-password logins for the
demo user all in second 100 collapse onto a single window entry (ZADD
keyed by `str(timestamp)`), so the account is *not* locked and a
subsequent correct-password login in the same second *succeeds*. -/
theorem recordFailedLogin_lockout_counterexample :
    (loginChain "alice@x.com" "wrong" "j" demoState [100, 100, 100, 100, 100]).store.lockExp
        "alice@x.com" = none
    ∧ ((login (loginChain "alice@x.com" "wrong" "j" demoState [100, 100, 100, 100, 100])
        "alice@x.com" "pw" 100 "a" "r").1).isOk = true := by
  decide

end BugTracker
